import Mathlib

/-!
Verification of the manifest-extraction and npm-registry-verification engine.

The Python sources embedded here are `src/package_extractor.py` (manifest
parsers) and `src/npm_checker.py` (registry verification and risk heuristics).
Pure string manipulation is modelled directly; results of Python standard
library parsers (`json.loads`, `xml.etree.ElementTree.fromstring`) are taken
as inputs of the corresponding Lean type (`none` models the parse exception
that the source catches); network responses are modelled by an oracle mapping
attempt numbers to HTTP outcomes.
-/

namespace Deponpm

/-! ## Python string primitives -/

/-- The characters Python `str.strip()` removes: space, tab, newline,
carriage return, vertical tab, form feed. -/
def pySpace (c : Char) : Bool :=
  c = ' ' || c = '\t' || c = '\n' || c = '\r' || c = Char.ofNat 11 || c = Char.ofNat 12

/-- The single-quote character (written via its code point). -/
def squote : Char := Char.ofNat 39

/-- The double-quote character. -/
def dquote : Char := '"'

/-- A quote character, as in the character class of Python `strip('"\'')`. -/
def isQuoteChar (c : Char) : Bool := c = dquote || c = squote

/-- Drop characters satisfying `p` from both ends of a character list. -/
def stripIf (p : Char → Bool) (cs : List Char) : List Char :=
  ((cs.dropWhile p).reverse.dropWhile p).reverse

/-- Python `s.strip()`. -/
def pyStrip (s : String) : String := String.mk (stripIf pySpace s.toList)

/-- Python `s.strip('"\'')`: strip any run of quote characters from both ends. -/
def stripQuotes (s : String) : String := String.mk (stripIf isQuoteChar s.toList)

/-- Python `s.lower()` restricted to ASCII case mapping (all names the
source manipulates are ASCII; `Char.toLower` agrees with `str.lower` there). -/
def pyLower (s : String) : String := String.mk (s.toList.map Char.toLower)

/-- Python `s.startswith(pat)`. -/
def pyStartswith (s pat : String) : Bool := pat.toList.isPrefixOf s.toList

/-- Python `s.endswith(pat)`. -/
def pyEndswith (s pat : String) : Bool := pat.toList.isSuffixOf s.toList

/-- Python `needle in hay` (contiguous substring containment). -/
def containsSub (needle : List Char) : List Char → Bool
  | [] => needle.isEmpty
  | c :: cs => needle.isPrefixOf (c :: cs) || containsSub needle cs

/-- String version of `containsSub`. -/
def strContains (hay needle : String) : Bool := containsSub needle.toList hay.toList

/-- Python `s.split(sep, 1)` for a single-character separator, returning the
two parts when the separator occurs (the source only splits after checking
`sep in s`). -/
def splitFirstChar (sep : Char) : List Char → Option (List Char × List Char)
  | [] => none
  | c :: cs =>
    if c = sep then some ([], cs)
    else (splitFirstChar sep cs).map (fun p => (c :: p.1, p.2))

/-- Python `s.split(sep, 1)` for a multi-character separator: split at the
first occurrence of `needle`, returning the parts before and after it. -/
def splitFirstSub (needle : List Char) : List Char → Option (List Char × List Char)
  | [] => if needle.isEmpty then some ([], []) else none
  | c :: cs =>
    if needle.isPrefixOf (c :: cs) then some ([], (c :: cs).drop needle.length)
    else (splitFirstSub needle cs).map (fun p => (c :: p.1, p.2))

/-- Python `content.split('\n')`. -/
def splitOnNl (cs : List Char) : List (List Char) :=
  match cs with
  | [] => [[]]
  | c :: rest =>
    let r := splitOnNl rest
    if c = '\n' then [] :: r
    else
      match r with
      | h :: t => (c :: h) :: t
      | [] => [[c]]

/-- The lines of a string, as Python `content.split('\n')` produces them. -/
def pyLines (content : String) : List String := (splitOnNl content.toList).map String.mk

/-- Python `str.split()` (no separator): words separated by whitespace runs. -/
def pyWords : List Char → List (List Char)
  | [] => []
  | c :: cs =>
    if pySpace c then pyWords cs
    else
      let w := cs.takeWhile (fun d => ¬ pySpace d)
      (c :: w) :: pyWords (cs.drop w.length)
termination_by cs => cs.length
decreasing_by
  · simp only [List.length_cons]; omega
  · simp only [List.length_cons, List.length_drop]; omega

/-- Python `enumerate(xs, i)`. -/
def enumFrom {α : Type} (i : Nat) : List α → List (Nat × α)
  | [] => []
  | x :: xs => (i, x) :: enumFrom (i + 1) xs

/-- Take a maximal nonempty run of characters satisfying `p` (the semantics of
a greedy `p+` regex atom); fails when the first character does not satisfy `p`. -/
def takeRun1 (p : Char → Bool) (cs : List Char) : Option (List Char × List Char) :=
  let run := cs.takeWhile p
  if run.isEmpty then none else some (run, cs.drop run.length)

/-! ## JSON values (the result of Python `json.loads`) -/

/-- A parsed JSON value.  Object fields are listed in document order, with
distinct keys, exactly as the items of the Python dict built by `json.loads`. -/
inductive Json where
  | str (s : String)
  | num (n : Int)
  | bool (b : Bool)
  | null
  | arr (elems : List Json)
  | obj (fields : List (String × Json))
deriving Repr, Inhabited

/-- Python `data.get(k)` / `k in data` on a parsed JSON object's items. -/
def jget (fields : List (String × Json)) (k : String) : Option Json :=
  (fields.find? (fun p => p.1 = k)).map Prod.snd

/-! ## XML elements (the result of `xml.etree.ElementTree.fromstring`) -/

/-- A parsed XML element: tag (with any namespace already folded into the
tag string, as ElementTree renders it), attributes, text, children. -/
inductive Xml where
  | elem (tag : String) (attrs : List (String × String)) (text : Option String)
      (children : List Xml)
deriving Repr, Inhabited

def Xml.tag : Xml → String
  | .elem t _ _ _ => t

def Xml.attrs : Xml → List (String × String)
  | .elem _ a _ _ => a

def Xml.text : Xml → Option String
  | .elem _ _ tx _ => tx

def Xml.children : Xml → List Xml
  | .elem _ _ _ ch => ch

/-- ElementTree `elem.get(name)`: attribute lookup. -/
def Xml.getAttr (x : Xml) (name : String) : Option String :=
  ((x.attrs).find? (fun p => p.1 = name)).map Prod.snd

mutual

/-- All elements of the subtree rooted at `x` (including `x`) whose tag is
`tag`, in document order. -/
def xmlSelfDesc (tag : String) : Xml → List Xml
  | .elem t a tx ch =>
    (if t = tag then [Xml.elem t a tx ch] else []) ++ xmlDescList tag ch

/-- All matching elements of a forest, in document order. -/
def xmlDescList (tag : String) : List Xml → List Xml
  | [] => []
  | x :: xs => xmlSelfDesc tag x ++ xmlDescList tag xs

end

/-- ElementTree `root.findall('.//tag')`: matching descendants of `x`
(excluding `x` itself), in document order. -/
def xmlFindAllDesc (x : Xml) (tag : String) : List Xml := xmlDescList tag x.children

/-- ElementTree `root.find('.//tag')`: first matching descendant. -/
def xmlFindDesc (x : Xml) (tag : String) : Option Xml := (xmlFindAllDesc x tag).head?

/-- ElementTree `elem.find('tag')`: first matching direct child. -/
def xmlFindChild (x : Xml) (tag : String) : Option Xml :=
  x.children.find? (fun c => c.tag = tag)

/-- ElementTree `elem.findall('tag')`: matching direct children. -/
def xmlFindChildren (x : Xml) (tag : String) : List Xml :=
  x.children.filter (fun c => c.tag = tag)

/-- Python f-string rendering of `elem.text` (`None` renders as `"None"`). -/
def pyStrOfOpt (o : Option String) : String :=
  match o with
  | some s => s
  | none => "None"

/-! ## The canonical package record

Source records are Python dicts; every parser emits the same seven keys.
`name` and `version` hold the JSON values copied verbatim by the npm/composer
parsers (always strings for the line- and regex-based parsers). -/

structure PackageRecord where
  name : Json
  version : Json
  type : String
  category : String
  package_manager : String
  file_path : String
  source : String
deriving Repr, Inhabited

/-! ## `PackageExtractor._parse_pip_specification` -/

/-- The version operators checked, in the source's check order. -/
def PIP_OPERATORS : List String := ["==", ">=", "<=", ">", "<", "~=", "!="]

/-- The operator loop of `_parse_pip_specification`: the first operator in
check order that occurs in `spec` splits it at that operator's first
occurrence. -/
def pipOperatorScan : List String → String → String × String
  | [], spec => (spec, "unknown")
  | op :: ops, spec =>
    match splitFirstSub op.toList spec.toList with
    | some (namePart, versionPart) =>
      (pyStrip (String.mk namePart), op ++ pyStrip (String.mk versionPart))
    | none => pipOperatorScan ops spec

/-- `PackageExtractor._parse_pip_specification`. -/
def parse_pip_specification (spec : String) : String × String :=
  pipOperatorScan PIP_OPERATORS (pyStrip spec)

/-! ## `PackageExtractor._extract_requirements_txt` -/

/-- The line test of `_extract_requirements_txt`, applied to the stripped
line: `if line and not line.startswith('#')`. -/
def reqLineTest (l : String) : Bool :=
  pyStrip l ≠ "" && ¬ pyStartswith (pyStrip l) "#"

/-- The body of the line loop of `_extract_requirements_txt`. -/
def requirementsLine (file_path : String) (lnLine : Nat × String) : List PackageRecord :=
  if reqLineTest lnLine.2 then
    let nv := parse_pip_specification (pyStrip lnLine.2)
    [{ name := .str nv.1, version := .str nv.2, type := "dependency",
       category := "requirements", package_manager := "pip", file_path := file_path,
       source := "requirements.txt:line_" ++ toString lnLine.1 }]
  else []

/-- `PackageExtractor._extract_requirements_txt`. -/
def extract_requirements_txt (content : String) (file_path : String) :
    List PackageRecord :=
  (enumFrom 1 (pyLines content)).flatMap (requirementsLine file_path)

/-! ## `PackageExtractor._extract_pyproject_toml` -/

/-- The line-oriented section state machine of `_extract_pyproject_toml`. -/
def pyprojectScan (file_path : String) :
    List (Nat × String) → Bool → List PackageRecord
  | [], _ => []
  | (ln, raw) :: rest, inDeps =>
    let line := pyStrip raw
    if pyStartswith line "[tool.poetry.dependencies]" ||
        pyStartswith line "[project.dependencies]" then
      pyprojectScan file_path rest true
    else if pyStartswith line "[" && inDeps then
      pyprojectScan file_path rest false
    else if inDeps && strContains line "=" && ¬ pyStartswith line "#" then
      match splitFirstChar '=' line.toList with
      | some (n, v) =>
        { name := .str (stripQuotes (pyStrip (String.mk n))),
          version := .str (stripQuotes (pyStrip (String.mk v))),
          type := "dependency", category := "dependencies", package_manager := "pip",
          file_path := file_path,
          source := "pyproject.toml:line_" ++ toString ln } ::
          pyprojectScan file_path rest inDeps
      | none => pyprojectScan file_path rest inDeps
    else pyprojectScan file_path rest inDeps

/-- `PackageExtractor._extract_pyproject_toml`. -/
def extract_pyproject_toml (content : String) (file_path : String) :
    List PackageRecord :=
  pyprojectScan file_path (enumFrom 1 (pyLines content)) false

/-! ## `PackageExtractor._extract_cargo_packages` -/

/-- The line-oriented section state machine of `_extract_cargo_packages`.
Unlike the pyproject scanner, the name part is only whitespace-stripped
(`name.strip()`), not quote-stripped. -/
def cargoScan (file_path : String) :
    List (Nat × String) → Bool → List PackageRecord
  | [], _ => []
  | (ln, raw) :: rest, inDeps =>
    let line := pyStrip raw
    if pyStartswith line "[dependencies]" then
      cargoScan file_path rest true
    else if pyStartswith line "[" && inDeps then
      cargoScan file_path rest false
    else if inDeps && strContains line "=" && ¬ pyStartswith line "#" then
      match splitFirstChar '=' line.toList with
      | some (n, v) =>
        { name := .str (pyStrip (String.mk n)),
          version := .str (stripQuotes (pyStrip (String.mk v))),
          type := "dependency", category := "dependencies",
          package_manager := "cargo", file_path := file_path,
          source := "Cargo.toml:line_" ++ toString ln } ::
          cargoScan file_path rest inDeps
      | none => cargoScan file_path rest inDeps
    else cargoScan file_path rest inDeps

/-- `PackageExtractor._extract_cargo_packages`. -/
def extract_cargo_packages (content : String) (file_path : String) :
    List PackageRecord :=
  cargoScan file_path (enumFrom 1 (pyLines content)) false

/-! ## `PackageExtractor._extract_go_packages` -/

/-- The body of the line loop of `_extract_go_packages`. -/
def goLine (file_path : String) (lnLine : Nat × String) : List PackageRecord :=
  let line := pyStrip lnLine.2
  if pyStartswith line "require " || pyStartswith line "replace " then
    match pyWords line.toList with
    | _ :: p1 :: restParts =>
      [{ name := .str (String.mk p1),
         version := .str (match restParts with
           | p2 :: _ => String.mk p2
           | [] => "unknown"),
         type := "dependency", category := "require", package_manager := "go",
         file_path := file_path,
         source := "go.mod:line_" ++ toString lnLine.1 }]
    | _ => []
  else []

/-- `PackageExtractor._extract_go_packages`. -/
def extract_go_packages (content : String) (file_path : String) :
    List PackageRecord :=
  (enumFrom 1 (pyLines content)).flatMap (goLine file_path)

/-! ## `PackageExtractor._extract_package_references_from_text`

The four patterns all have the shape `kw1\s+kw2\s+([class]+)`.  Because the
whitespace and capture classes are disjoint from the literals that follow
them, greedy maximal-munch matching coincides with Python regex semantics,
and `re.findall` resumes scanning after each match. -/

/-- Try to match `kw1\s+kw2\s+([good]+)` at the head of `cs`; on success
return the capture and the remainder after the match. -/
def matchRefAt (kw1 kw2 : List Char) (good : Char → Bool) (cs : List Char) :
    Option (List Char × List Char) :=
  if kw1.isPrefixOf cs then
    match takeRun1 pySpace (cs.drop kw1.length) with
    | none => none
    | some (_, rest2) =>
      if kw2.isPrefixOf rest2 then
        match takeRun1 pySpace (rest2.drop kw2.length) with
        | none => none
        | some (_, rest4) => takeRun1 good rest4
      else none
  else none

/-- `re.findall` for one reference pattern: scan left to right, emit each
match's capture, resume after the match.  `fuel` only bounds the number of
scan steps; every step consumes at least one character, so any fuel of at
least `cs.length` yields the exact findall semantics. -/
def findRefsAux (kw1 kw2 : List Char) (good : Char → Bool) :
    Nat → List Char → List (List Char)
  | 0, _ => []
  | _, [] => []
  | fuel + 1, c :: cs =>
    match matchRefAt kw1 kw2 good (c :: cs) with
    | some (cap, rest) => cap :: findRefsAux kw1 kw2 good fuel rest
    | none => findRefsAux kw1 kw2 good fuel cs

/-- All captures of one reference pattern over `text`. -/
def findRefs (kw1 kw2 : String) (good : Char → Bool) (text : String) :
    List String :=
  (findRefsAux kw1.toList kw2.toList good (text.length + 1) text.toList).map
    String.mk

/-- The character class `[a-zA-Z0-9@\-_/]` of the npm/yarn patterns. -/
def npmRefChar (c : Char) : Bool :=
  c.isAlpha || c.isDigit || c = '@' || c = '-' || c = '_' || c = '/'

/-- The character class `[a-zA-Z0-9\-_]` of the pip pattern. -/
def pipRefChar (c : Char) : Bool :=
  c.isAlpha || c.isDigit || c = '-' || c = '_'

/-- The character class `[a-zA-Z0-9\-_/]` of the composer pattern. -/
def composerRefChar (c : Char) : Bool :=
  c.isAlpha || c.isDigit || c = '-' || c = '_' || c = '/'

/-- `PackageExtractor._extract_package_references_from_text`. -/
def extract_package_references_from_text (text : String) : List String :=
  findRefs "npm" "install" npmRefChar text ++
  findRefs "yarn" "add" npmRefChar text ++
  findRefs "pip" "install" pipRefChar text ++
  findRefs "composer" "require" composerRefChar text

/-! ## `PackageExtractor._extract_setup_py`

Regex shapes used by the source: `install_requires\s*=\s*\[(.*?)\]` with
DOTALL (capture runs to the first `]`), `["\']([^"\']+)["\']` (a quoted
literal; the closing quote need not match the opening one), and
`name\s*=\s*["\']([^"\']+)["\']` / the same for `version`. -/

/-- Try to match `kw\s*=\s*["\']([^"\']+)["\']` at the head of `cs`. -/
def matchQuotedKVAt (kw : List Char) (cs : List Char) : Option (List Char) :=
  if kw.isPrefixOf cs then
    match (cs.drop kw.length).dropWhile pySpace with
    | '=' :: r2 =>
      match r2.dropWhile pySpace with
      | q :: r4 =>
        if isQuoteChar q then
          match takeRun1 (fun d => ¬ isQuoteChar d) r4 with
          | some (cap, d :: _) => if isQuoteChar d then some cap else none
          | _ => none
        else none
      | [] => none
    | _ => none
  else none

/-- `re.search(kw + r'\s*=\s*["\']([^"\']+)["\']', content)`: first match's
capture, scanning positions left to right. -/
def searchQuotedKV (kw : List Char) : List Char → Option (List Char)
  | [] => none
  | c :: cs =>
    match matchQuotedKVAt kw (c :: cs) with
    | some cap => some cap
    | none => searchQuotedKV kw cs

/-- Try to match `install_requires\s*=\s*\[(.*?)\]` at the head of `cs`. -/
def matchInstallRequiresAt (cs : List Char) : Option (List Char) :=
  let kw := "install_requires".toList
  if kw.isPrefixOf cs then
    match (cs.drop kw.length).dropWhile pySpace with
    | '=' :: r2 =>
      match r2.dropWhile pySpace with
      | '[' :: r4 => (splitFirstChar ']' r4).map Prod.fst
      | _ => none
    | _ => none
  else none

/-- `re.search` for the `install_requires` list body. -/
def searchInstallRequires : List Char → Option (List Char)
  | [] => none
  | c :: cs =>
    match matchInstallRequiresAt (c :: cs) with
    | some cap => some cap
    | none => searchInstallRequires cs

/-- `re.findall(r'["\']([^"\']+)["\']', text)`: all quoted literals.  As in
`findRefsAux`, fuel only bounds scan steps. -/
def findQuotedAux : Nat → List Char → List (List Char)
  | 0, _ => []
  | _, [] => []
  | fuel + 1, c :: cs =>
    if isQuoteChar c then
      match takeRun1 (fun d => ¬ isQuoteChar d) cs with
      | some (cap, d :: rest2) =>
        if isQuoteChar d then cap :: findQuotedAux fuel rest2
        else findQuotedAux fuel cs
      | _ => findQuotedAux fuel cs
    else findQuotedAux fuel cs

/-- All quoted literals in `cs`. -/
def findQuoted (cs : List Char) : List (List Char) :=
  findQuotedAux (cs.length + 1) cs

/-- `PackageExtractor._extract_setup_py`. -/
def extract_setup_py (content : String) (file_path : String) :
    List PackageRecord :=
  let irRecords :=
    match searchInstallRequires content.toList with
    | some body =>
      (findQuoted body).map (fun dep =>
        let nv := parse_pip_specification (String.mk dep)
        { name := .str nv.1, version := .str nv.2, type := "dependency",
          category := "install_requires", package_manager := "pip",
          file_path := file_path, source := "setup.py:install_requires" })
    | none => []
  let mainRecords :=
    match searchQuotedKV "name".toList content.toList with
    | some n =>
      [{ name := .str (String.mk n),
         version := .str (match searchQuotedKV "version".toList content.toList with
           | some v => String.mk v
           | none => "unknown"),
         type := "package", category := "main", package_manager := "pip",
         file_path := file_path, source := "setup.py:main" }]
    | none => []
  irRecords ++ mainRecords

/-! ## `PackageExtractor._extract_gradle_packages`

Two patterns, each run by `re.findall` over the whole content.  The keyword
alternation is tried in the listed order at each position, and a later
alternative is tried when an earlier one matches but the remainder of the
pattern fails (regex backtracking). -/

/-- The configuration keywords, in the alternation order of the source. -/
def GRADLE_KEYWORDS : List String :=
  ["implementation", "compile", "testImplementation", "testCompile", "api",
   "compileOnly", "runtimeOnly"]

/-- Match `\s+["\']([^"\']+)["\']` (the tail of gradle pattern 1). -/
def matchGradleSingleTail (cs : List Char) : Option (List Char × List Char) :=
  match takeRun1 pySpace cs with
  | none => none
  | some (_, q :: r2) =>
    if isQuoteChar q then
      match takeRun1 (fun d => ¬ isQuoteChar d) r2 with
      | some (cap, d :: rest) =>
        if isQuoteChar d then some (cap, rest) else none
      | _ => none
    else none
  | some (_, []) => none

/-- Match `kw:\s*["\']([^"\']+)["\']` starting at `cs`. -/
def matchGradleKwString (kw : List Char) (cs : List Char) :
    Option (List Char × List Char) :=
  if (kw ++ [':']).isPrefixOf cs then
    match (cs.drop (kw.length + 1)).dropWhile pySpace with
    | q :: r2 =>
      if isQuoteChar q then
        match takeRun1 (fun d => ¬ isQuoteChar d) r2 with
        | some (cap, d :: rest) =>
          if isQuoteChar d then some (cap, rest) else none
        | _ => none
      else none
    | [] => none
  else none

/-- Match `\s*,\s*` followed by `kw:\s*["\']([^"\']+)["\']`. -/
def matchGradleCommaKw (kw : List Char) (cs : List Char) :
    Option (List Char × List Char) :=
  match cs.dropWhile pySpace with
  | ',' :: r2 => matchGradleKwString kw (r2.dropWhile pySpace)
  | _ => none

/-- Match the tail of gradle pattern 2 after a keyword:
`\s+group:\s*["\'](…)["\']\s*,\s*name:\s*["\'](…)["\']\s*,\s*version:\s*["\'](…)["\']`. -/
def matchGradleTripleTail (cs : List Char) :
    Option ((List Char × List Char × List Char) × List Char) :=
  match takeRun1 pySpace cs with
  | none => none
  | some (_, r1) =>
    match matchGradleKwString "group".toList r1 with
    | none => none
    | some (g, r2) =>
      match matchGradleCommaKw "name".toList r2 with
      | none => none
      | some (n, r3) =>
        match matchGradleCommaKw "version".toList r3 with
        | none => none
        | some (v, r4) => some ((g, n, v), r4)

/-- Try each keyword alternative in order at the head of `cs`, continuing
with `tail` after a keyword; backtrack to later alternatives when the tail
fails. -/
def matchAlternation {α : Type} (kws : List (List Char))
    (tail : List Char → Option (α × List Char)) (cs : List Char) :
    Option (α × List Char) :=
  match kws with
  | [] => none
  | k :: ks =>
    if k.isPrefixOf cs then
      match tail (cs.drop k.length) with
      | some r => some r
      | none => matchAlternation ks tail cs
    else matchAlternation ks tail cs

/-- `re.findall` driver over an at-a-position matcher; fuel only bounds
scan steps. -/
def findallAux {α : Type} (mt : List Char → Option (α × List Char)) :
    Nat → List Char → List α
  | 0, _ => []
  | _, [] => []
  | fuel + 1, c :: cs =>
    match mt (c :: cs) with
    | some (cap, rest) => cap :: findallAux mt fuel rest
    | none => findallAux mt fuel cs

/-- All matches of an at-a-position matcher over `text`. -/
def findallOver {α : Type} (mt : List Char → Option (α × List Char))
    (text : String) : List α :=
  findallAux mt (text.length + 1) text.toList

/-- `PackageExtractor._extract_gradle_packages`. -/
def extract_gradle_packages (content : String) (file_path : String) :
    List PackageRecord :=
  let kws := GRADLE_KEYWORDS.map String.toList
  let single := findallOver (matchAlternation kws matchGradleSingleTail) content
  let triple := findallOver (matchAlternation kws matchGradleTripleTail) content
  single.map (fun cap =>
    { name := .str (String.mk cap), version := .str "unknown",
      type := "dependency", category := "gradle", package_manager := "gradle",
      file_path := file_path, source := "build.gradle" }) ++
  triple.map (fun cap =>
    { name := .str (String.mk cap.1 ++ ":" ++ String.mk cap.2.1),
      version := .str (String.mk cap.2.2),
      type := "dependency", category := "gradle", package_manager := "gradle",
      file_path := file_path, source := "build.gradle" })

/-! ## `PackageExtractor._extract_ruby_packages`

`re.match(r'gem\s+["\']([^"\']+)["\'](?:\s*,\s*["\']([^"\']+)["\'])?', line)`
anchored at the start of each stripped line beginning with `"gem "`. -/

/-- The optional `(?:\s*,\s*["\']([^"\']+)["\'])?` version group. -/
def matchGemVersion (cs : List Char) : Option (List Char) :=
  match cs.dropWhile pySpace with
  | ',' :: r2 =>
    match r2.dropWhile pySpace with
    | q :: r4 =>
      if isQuoteChar q then
        match takeRun1 (fun d => ¬ isQuoteChar d) r4 with
        | some (cap, d :: _) => if isQuoteChar d then some cap else none
        | _ => none
      else none
    | [] => none
  | _ => none

/-- The anchored gem pattern: name capture and optional version capture. -/
def matchGem (cs : List Char) : Option (List Char × Option (List Char)) :=
  if "gem".toList.isPrefixOf cs then
    match takeRun1 pySpace (cs.drop 3) with
    | none => none
    | some (_, q :: r2) =>
      if isQuoteChar q then
        match takeRun1 (fun d => ¬ isQuoteChar d) r2 with
        | some (cap, d :: r3) =>
          if isQuoteChar d then some (cap, matchGemVersion r3) else none
        | _ => none
      else none
    | some (_, []) => none
  else none

/-- The body of the line loop of `_extract_ruby_packages`. -/
def rubyLine (file_path : String) (lnLine : Nat × String) : List PackageRecord :=
  let line := pyStrip lnLine.2
  if pyStartswith line "gem " then
    match matchGem line.toList with
    | some (nameCap, verCap) =>
      [{ name := .str (String.mk nameCap),
         version := .str (match verCap with
           | some v => String.mk v
           | none => "unknown"),
         type := "dependency", category := "gem", package_manager := "ruby",
         file_path := file_path,
         source := "Gemfile:line_" ++ toString lnLine.1 }]
    | none => []
  else []

/-- `PackageExtractor._extract_ruby_packages`. -/
def extract_ruby_packages (content : String) (file_path : String) :
    List PackageRecord :=
  (enumFrom 1 (pyLines content)).flatMap (rubyLine file_path)

/-! ## `PackageExtractor._extract_npm_packages`

The argument is the field list of the object produced by `json.loads`;
`none` models the `json.JSONDecodeError` the source catches (returning the
records collected so far, i.e. none).  Script values that are not JSON
strings are modelled as yielding no references (in Python a non-string value
raises past this parser and is caught at the file boundary; no claim
exercises that corner). -/

/-- The dependency-table keys, in the source's iteration order. -/
def NPM_DEP_KEYS : List String :=
  ["dependencies", "devDependencies", "peerDependencies", "optionalDependencies"]

/-- `PackageExtractor._extract_npm_packages`. -/
def extract_npm_packages (data : Option (List (String × Json)))
    (file_path : String) : List PackageRecord :=
  match data with
  | none => []
  | some fields =>
    let mainRecords :=
      match jget fields "name" with
      | some nameVal =>
        [{ name := nameVal,
           version := (jget fields "version").getD (.str "unknown"),
           type := "package", category := "main", package_manager := "npm",
           file_path := file_path, source := "package.json" }]
      | none => []
    let depRecords := NPM_DEP_KEYS.flatMap (fun depsKey =>
      match jget fields depsKey with
      | some (.obj deps) => deps.map (fun nv =>
          { name := .str nv.1, version := nv.2, type := "dependency",
            category := depsKey, package_manager := "npm",
            file_path := file_path, source := "package.json" })
      | _ => [])
    let scriptRecords :=
      match jget fields "scripts" with
      | some (.obj scripts) => scripts.flatMap (fun sv =>
          (match sv.2 with
            | .str s => extract_package_references_from_text s
            | _ => []).map (fun pkgName =>
            { name := .str pkgName, version := .str "unknown",
              type := "script_reference", category := "scripts",
              package_manager := "npm", file_path := file_path,
              source := "package.json:scripts:" ++ sv.1 }))
      | _ => []
    mainRecords ++ depRecords ++ scriptRecords

/-! ## `PackageExtractor._extract_composer_packages` -/

/-- The dependency-table keys of composer manifests. -/
def COMPOSER_DEP_KEYS : List String := ["require", "require-dev"]

/-- `PackageExtractor._extract_composer_packages`. -/
def extract_composer_packages (data : Option (List (String × Json)))
    (file_path : String) : List PackageRecord :=
  match data with
  | none => []
  | some fields =>
    let mainRecords :=
      match jget fields "name" with
      | some nameVal =>
        [{ name := nameVal,
           version := (jget fields "version").getD (.str "unknown"),
           type := "package", category := "main", package_manager := "composer",
           file_path := file_path, source := "composer.json" }]
      | none => []
    let depRecords := COMPOSER_DEP_KEYS.flatMap (fun depsKey =>
      match jget fields depsKey with
      | some (.obj deps) => deps.map (fun nv =>
          { name := .str nv.1, version := nv.2, type := "dependency",
            category := depsKey, package_manager := "composer",
            file_path := file_path, source := "composer.json" })
      | _ => [])
    mainRecords ++ depRecords

/-! ## `PackageExtractor._extract_maven_packages`

The argument is the root element produced by `ET.fromstring`; `none` models
the `ET.ParseError` the source catches. -/

/-- Prepend the Maven POM namespace to a tag, as ElementTree renders it. -/
def mavenNS (t : String) : String :=
  "\x7bhttp://maven.apache.org/POM/4.0.0\x7d" ++ t

/-- The `version` field value of a maven record: the element's text when the
element is present (Python `None` text modelled as JSON null), else the
string `"unknown"`. -/
def mavenVersionVal (verElem : Option Xml) : Json :=
  match verElem with
  | some v =>
    match v.text with
    | some t => .str t
    | none => .null
  | none => .str "unknown"

/-- `PackageExtractor._extract_maven_packages`. -/
def extract_maven_packages (root : Option Xml) (file_path : String) :
    List PackageRecord :=
  match root with
  | none => []
  | some root =>
    let groupId := xmlFindDesc root (mavenNS "groupId")
    let artifactId := xmlFindDesc root (mavenNS "artifactId")
    let version := xmlFindDesc root (mavenNS "version")
    let mainRecords :=
      match artifactId with
      | some a =>
        [{ name := .str ((match groupId with
              | some g => pyStrOfOpt g.text
              | none => "unknown") ++ ":" ++ pyStrOfOpt a.text),
           version := mavenVersionVal version,
           type := "package", category := "main", package_manager := "maven",
           file_path := file_path, source := "pom.xml:main" }]
      | none => []
    let depRecords := (xmlFindAllDesc root (mavenNS "dependency")).flatMap
      (fun dep =>
        match xmlFindChild dep (mavenNS "artifactId") with
        | some a =>
          [{ name := .str ((match xmlFindChild dep (mavenNS "groupId") with
                | some g => pyStrOfOpt g.text
                | none => "unknown") ++ ":" ++ pyStrOfOpt a.text),
             version := mavenVersionVal (xmlFindChild dep (mavenNS "version")),
             type := "dependency", category := "dependencies",
             package_manager := "maven", file_path := file_path,
             source := "pom.xml:dependencies" }]
        | none => [])
    mainRecords ++ depRecords

/-! ## NuGet parsers -/

/-- `PackageExtractor._extract_packages_config`. -/
def extract_packages_config (root : Option Xml) (file_path : String) :
    List PackageRecord :=
  match root with
  | none => []
  | some root =>
    (xmlFindChildren root "package").flatMap (fun p =>
      match p.getAttr "id" with
      | some idAttr =>
        if idAttr = "" then []
        else
          [{ name := .str idAttr,
             version := .str (match p.getAttr "version" with
               | some v => if v = "" then "unknown" else v
               | none => "unknown"),
             type := "dependency", category := "package",
             package_manager := "nuget", file_path := file_path,
             source := "packages.config" }]
      | none => [])

/-- `PackageExtractor._extract_csproj_packages`. -/
def extract_csproj_packages (root : Option Xml) (file_path : String) :
    List PackageRecord :=
  match root with
  | none => []
  | some root =>
    (xmlFindAllDesc root "PackageReference").flatMap (fun p =>
      match p.getAttr "Include" with
      | some includeAttr =>
        if includeAttr = "" then []
        else
          [{ name := .str includeAttr,
             version := .str (match p.getAttr "Version" with
               | some v => if v = "" then "unknown" else v
               | none => "unknown"),
             type := "dependency", category := "PackageReference",
             package_manager := "nuget", file_path := file_path,
             source := ".csproj" }]
      | none => [])

/-! ## File-level dispatch and directory extraction -/

/-- A manifest file as the extractor sees it.  `raw` is the text read with
`errors='ignore'`; `jsonData` is the field list of the object `json.loads`
yields on `raw` (`none` when it raises, or when the document is not an
object); `xmlData` is the element `ET.fromstring` yields (`none` when it
raises `ParseError`). -/
structure FileEntry where
  path : String
  basename : String
  raw : String
  jsonData : Option (List (String × Json))
  xmlData : Option Xml

/-- `PackageExtractor._identify_package_type`. -/
def identify_package_type (basename : String) : Option String :=
  let filename := pyLower basename
  if filename = "package.json" then some "npm"
  else if filename = "yarn.lock" then some "yarn"
  else if filename = "requirements.txt" then some "pip"
  else if filename = "setup.py" then some "pip"
  else if filename = "pyproject.toml" then some "pip"
  else if filename = "pom.xml" then some "maven"
  else if filename = "build.gradle" || filename = "build.gradle.kts" then
    some "gradle"
  else if filename = "composer.json" then some "composer"
  else if filename = "cargo.toml" then some "cargo"
  else if filename = "go.mod" || filename = "go.sum" then some "go"
  else if filename = "gemfile" || filename = "gemfile.lock" then some "ruby"
  else if filename = "packages.config" then some "nuget"
  else if pyEndswith filename ".csproj" || pyEndswith filename ".vbproj" then
    some "nuget"
  else none

/-- `PackageExtractor._extract_pip_packages` (dispatch on the exact,
case-sensitive basename; an unmatched basename yields no records). -/
def extract_pip_packages (f : FileEntry) : List PackageRecord :=
  if f.basename = "requirements.txt" then extract_requirements_txt f.raw f.path
  else if f.basename = "setup.py" then extract_setup_py f.raw f.path
  else if f.basename = "pyproject.toml" then extract_pyproject_toml f.raw f.path
  else []

/-- `PackageExtractor._extract_nuget_packages`. -/
def extract_nuget_packages (f : FileEntry) : List PackageRecord :=
  if f.basename = "packages.config" then extract_packages_config f.xmlData f.path
  else if pyEndswith f.basename ".csproj" || pyEndswith f.basename ".vbproj" then
    extract_csproj_packages f.xmlData f.path
  else []

/-- `PackageExtractor._extract_packages_from_file`: identify the ecosystem,
bail out on empty content, dispatch to the matching parser; any unmatched
ecosystem (e.g. `yarn`) and any internal failure yields `[]`. -/
def extract_packages_from_file (f : FileEntry) : List PackageRecord :=
  match identify_package_type f.basename with
  | none => []
  | some ptype =>
    if f.raw = "" then []
    else if ptype = "npm" then extract_npm_packages f.jsonData f.path
    else if ptype = "pip" then extract_pip_packages f
    else if ptype = "maven" then extract_maven_packages f.xmlData f.path
    else if ptype = "gradle" then extract_gradle_packages f.raw f.path
    else if ptype = "composer" then extract_composer_packages f.jsonData f.path
    else if ptype = "cargo" then extract_cargo_packages f.raw f.path
    else if ptype = "go" then extract_go_packages f.raw f.path
    else if ptype = "ruby" then extract_ruby_packages f.raw f.path
    else if ptype = "nuget" then extract_nuget_packages f
    else []

/-- `PackageExtractor.extract_packages_from_directory`, applied to the list
of manifest files found under the root: per-file results are concatenated in
file order (extending an accumulator by an empty list is a no-op, so the
source's `if packages:` guard only affects bookkeeping). -/
def extract_packages_from_directory (files : List FileEntry) :
    List PackageRecord :=
  match files with
  | [] => []
  | f :: fs => extract_packages_from_file f ++ extract_packages_from_directory fs

/-! ## `NPMChecker` configuration constants (fallback values of the source,
matching `config/settings.py`) -/

def MAX_CONCURRENT_NPM_CHECKS : Nat := 10
def MAX_RETRIES : Nat := 3
def RETRY_DELAY : Nat := 1
def BACKOFF_FACTOR : Nat := 2

/-! ## `NPMChecker._is_similar_name` -/

/-- `sum(c1 != c2 for c1, c2 in zip(name1, name2))`. -/
def countMismatch : List Char → List Char → Nat
  | a :: as, b :: bs => (if a = b then 0 else 1) + countMismatch as bs
  | _, _ => 0

/-- The greedy two-pointer subsequence scan of `_is_similar_name`:
advance through `longer`, consuming a character of `shorter` on each match;
succeed when `shorter` is exhausted. -/
def isSubseqGreedy : List Char → List Char → Bool
  | [], _ => true
  | _ :: _, [] => false
  | a :: as, b :: bs =>
    if a = b then isSubseqGreedy as bs else isSubseqGreedy (a :: as) bs

/-- The insertion/deletion branch of `_is_similar_name`, applied to the
(shorter, longer) pair. -/
def similarInsDel (p : String × String) : Bool :=
  if p.2.length - p.1.length = 1 then isSubseqGreedy p.1.toList p.2.toList
  else false

/-- `NPMChecker._is_similar_name`. -/
def is_similar_name (name1 name2 : String) : Bool :=
  if ((name1.length : Int) - (name2.length : Int)).natAbs > 2 then false
  else if name1.length = name2.length then
    decide (countMismatch name1.toList name2.toList ≤ 1)
  else
    similarInsDel (if name1.length < name2.length then (name1, name2)
      else (name2, name1))

/-! ## `NPMChecker._is_potentially_vulnerable_package` -/

/-- The suspicious-substring list, in source order. -/
def SUSPICIOUS_PATTERNS : List String :=
  ["test", "demo", "example", "sample", "temp", "tmp",
   "backup", "old", "legacy", "deprecated", "unused",
   "admin", "root", "password", "secret", "key", "token",
   "debug", "dev", "development", "local", "private"]

/-- The popular-package list, in source order. -/
def POPULAR_PACKAGES : List String :=
  ["lodash", "express", "react", "vue", "angular", "jquery",
   "axios", "moment", "bootstrap", "webpack", "babel"]

/-- `NPMChecker._is_potentially_vulnerable_package`. -/
def is_potentially_vulnerable_package (package_name : String) : Bool :=
  let package_lower := pyLower package_name
  if SUSPICIOUS_PATTERNS.any (fun pat => strContains package_lower pat) then true
  else if package_name.length < 3 then true
  else if POPULAR_PACKAGES.any (fun popular =>
      is_similar_name package_name popular) then true
  else false

/-! ## `NPMChecker._get_package_vulnerabilities` -/

/-- The vulnerability dict emitted by the heuristic placeholder. -/
structure Vulnerability where
  id : String
  severity : String
  title : String
  description : String
  source : String
deriving Repr, DecidableEq

/-- `NPMChecker._get_package_vulnerabilities` (no network: a pure heuristic). -/
def get_package_vulnerabilities (package_name : String) : List Vulnerability :=
  if is_potentially_vulnerable_package package_name then
    [{ id := "potential_vulnerability", severity := "medium",
       title := "Potentially vulnerable package",
       description := "Package name suggests potential security risk",
       source := "heuristic_check" }]
  else []

/-! ## `NPMChecker._get_package_info`

The registry is modelled by an oracle mapping the attempt number to the HTTP
outcome of that attempt's `GET {registry_base}/{name}`. -/

/-- The outcome of one HTTP request: a 200 whose JSON object body parsed
(field list in document order), a 404, any other status, or a transport
failure — the latter covers `asyncio.TimeoutError` and every other exception
the attempt's `except` clauses catch (including a body that fails to
decode). -/
inductive HttpOutcome where
  | ok (body : List (String × Json))
  | notFound
  | otherStatus (code : Nat)
  | netError (msg : String)

/-- The package-info dict built from a 200 response body. -/
structure NpmPackageInfo where
  name : Json
  version : Json
  description : Json
  homepage : Json
  repository : Json
  author : Json
  license : Json
  keywords : Json
  maintainers : Json
  time : Json
  versions : List String
deriving Repr

/-- The dict the 200 branch of `_get_package_info` builds (the `versions`
entry takes the keys of the `versions` object when the key is present; a
non-object `versions` value is modelled as the empty list — in Python it
raises and the attempt becomes a retried failure, a corner no claim
touches). -/
def buildPackageInfo (body : List (String × Json)) (package_name : String) :
    NpmPackageInfo :=
  { name := (jget body "name").getD (.str package_name),
    version := (jget body "version").getD (.str "unknown"),
    description := (jget body "description").getD (.str ""),
    homepage := (jget body "homepage").getD (.str ""),
    repository := (jget body "repository").getD (.obj []),
    author := (jget body "author").getD (.obj []),
    license := (jget body "license").getD (.str ""),
    keywords := (jget body "keywords").getD (.arr []),
    maintainers := (jget body "maintainers").getD (.arr []),
    time := (jget body "time").getD (.obj []),
    versions :=
      match jget body "versions" with
      | some (.obj vs) => vs.map Prod.fst
      | _ => [] }

/-- What a run of the retry loop produces: the returned info (if any), the
number of HTTP requests issued, and the backoff delays slept between
attempts, in order. -/
structure FetchResult where
  info : Option NpmPackageInfo
  requests : Nat
  sleeps : List Nat
deriving Repr

/-- The retry loop of `_get_package_info`, starting at `attempt` with
`remaining` iterations left (`attempt + remaining = MAX_RETRIES`):
a 200 returns the built info; a 404 returns no info; any other status logs
and returns no info immediately; a transport failure sleeps
`RETRY_DELAY * BACKOFF_FACTOR ^ attempt` and retries while attempts remain. -/
def getPackageInfoLoop (resp : Nat → HttpOutcome) (package_name : String)
    (attempt : Nat) : Nat → FetchResult
  | 0 => { info := none, requests := 0, sleeps := [] }
  | remaining + 1 =>
    match resp attempt with
    | .ok body =>
      { info := some (buildPackageInfo body package_name), requests := 1,
        sleeps := [] }
    | .notFound => { info := none, requests := 1, sleeps := [] }
    | .otherStatus _ => { info := none, requests := 1, sleeps := [] }
    | .netError _ =>
      match remaining with
      | 0 => { info := none, requests := 1, sleeps := [] }
      | r + 1 =>
        let rest := getPackageInfoLoop resp package_name (attempt + 1) (r + 1)
        { info := rest.info, requests := rest.requests + 1,
          sleeps := RETRY_DELAY * BACKOFF_FACTOR ^ attempt :: rest.sleeps }

/-- `NPMChecker._get_package_info`. -/
def get_package_info (resp : Nat → HttpOutcome) (package_name : String) :
    FetchResult :=
  getPackageInfoLoop resp package_name 0 MAX_RETRIES

/-! ## `NPMChecker._check_single_package_async` and
`NPMChecker.check_packages_async` -/

/-- An input package dict, restricted to the keys the checker reads
(`name` defaulting to `""` when absent, and `package_manager`). -/
structure NpmPackage where
  name : String
  package_manager : String
deriving Repr, DecidableEq

/-- The checked package dict: the input dict (`base`) updated with the
verification keys. -/
structure CheckedPackage where
  base : NpmPackage
  npm_status : String
  is_unclaimed : Bool
  is_vulnerable : Bool
  vulnerabilities : List Vulnerability
  package_info : Option NpmPackageInfo
deriving Repr

/-- `NPMChecker._check_single_package_async`, with the per-name registry
oracle `registry`.  Returns the updated dict (or `none` for a nameless
package) together with the names for which a registry lookup was issued. -/
def check_single_package (registry : String → Nat → HttpOutcome)
    (package : NpmPackage) : Option CheckedPackage × List String :=
  let package_name := package.name
  if package_name = "" then (none, [])
  else
    let fetch := get_package_info (registry package_name) package_name
    match fetch.info with
    | none =>
      (some { base := package, npm_status := "not_found", is_unclaimed := true,
              is_vulnerable := false, vulnerabilities := [],
              package_info := none }, [package_name])
    | some info =>
      let vulns := get_package_vulnerabilities package_name
      (some { base := package, npm_status := "found", is_unclaimed := false,
              is_vulnerable := decide (0 < vulns.length),
              vulnerabilities := vulns, package_info := some info },
       [package_name])

/-- The task fan-out of `check_packages_async` over the npm-filtered list:
results are collected in input order, dropping `none`s; lookups are
concatenated. -/
def checkPackagesList (registry : String → Nat → HttpOutcome) :
    List NpmPackage → List CheckedPackage × List String
  | [] => ([], [])
  | p :: ps =>
    let head := check_single_package registry p
    let rest := checkPackagesList registry ps
    (match head.1 with
      | some c => c :: rest.1
      | none => rest.1,
     head.2 ++ rest.2)

/-- `NPMChecker.check_packages_async`: filter to `package_manager == 'npm'`
and check every remaining record. -/
def check_packages (registry : String → Nat → HttpOutcome)
    (packages : List NpmPackage) : List CheckedPackage × List String :=
  checkPackagesList registry
    (packages.filter (fun p => p.package_manager = "npm"))

/-! ## Specification-side definitions

These definitions follow the spec's wording (Hamming distance, subsequence,
first occurrence, bracket-section scanner) rather than the source's loops;
the refinement theorems below compare them with the source embeddings. -/

/-- The spec's `RiskVerdict` reason. -/
inductive RiskReason where
  | keywordMatch
  | shortName
  | nameSimilarity
  | noRisk
deriving Repr, DecidableEq

/-- Hamming distance of two equal-length names, as the number of mismatched
positions of the zipped character sequences. -/
def specHamming (a b : String) : Nat :=
  (a.toList.zip b.toList).countP (fun p => decide (p.1 ≠ p.2))

/-- The spec's similarity rule: length gap above 2 is never similar; equal
lengths compare by Hamming distance at most 1; a gap of exactly 1 asks
whether the shorter string is a (not necessarily contiguous) subsequence of
the longer; a gap of exactly 2 is not similar. -/
def specSimilar (a b : String) : Bool :=
  if ((a.length : Int) - (b.length : Int)).natAbs > 2 then false
  else if a.length = b.length then decide (specHamming a b ≤ 1)
  else
    let shorter := if a.length < b.length then a else b
    let longer := if a.length < b.length then b else a
    if longer.length = shorter.length + 1 then
      decide (shorter.toList.Sublist longer.toList)
    else false

/-- The spec's Risk Scorer: rules evaluated in order, first match wins. -/
def specScore (name : String) : RiskReason :=
  if SUSPICIOUS_PATTERNS.any
      (fun k => decide (k.toList <:+: (pyLower name).toList)) then
    .keywordMatch
  else if name.length < 3 then .shortName
  else if POPULAR_PACKAGES.any (fun popular => specSimilar name popular) then
    .nameSimilarity
  else .noRisk

/-- Split at the first occurrence of `op`, located by the least index where
`op` occurs. -/
def firstOccSplit (op : List Char) (cs : List Char) :
    Option (List Char × List Char) :=
  match (List.range cs.length).find? (fun i => op.isPrefixOf (cs.drop i)) with
  | some i => some (cs.take i, cs.drop (i + op.length))
  | none => none

/-- The spec's pip-specification rule: scan the operators in the listed
check order; the first one occurring in the stripped line splits it at that
operator's first occurrence into stripped name and `operator+value`; when no
operator occurs the version is `"unknown"`. -/
def specPipScan : List String → String → String × String
  | [], spec => (spec, "unknown")
  | op :: ops, spec =>
    match firstOccSplit op.toList spec.toList with
    | some (namePart, versionPart) =>
      (pyStrip (String.mk namePart), op ++ pyStrip (String.mk versionPart))
    | none => specPipScan ops spec

/-- The spec's reading of `_parse_pip_specification`. -/
def specPipParse (spec : String) : String × String :=
  specPipScan PIP_OPERATORS (pyStrip spec)

/-- The spec's bracket-section line scanner, § "pyproject.toml" and
"cargo": enter the section on a trigger header line, leave it on any other
`[`-header, and inside the section emit, for every line containing `=` and
not starting with `#`, the pair of the parts before and after the first `=`,
whitespace-stripped, with `cleanName` applied to the name part and quotes
stripped from the version part. -/
def specSectionScan (isTrigger : String → Bool) (cleanName : String → String) :
    List String → Bool → List (String × String)
  | [], _ => []
  | raw :: rest, inSection =>
    let line := pyStrip raw
    if isTrigger line then specSectionScan isTrigger cleanName rest true
    else if pyStartswith line "[" && inSection then
      specSectionScan isTrigger cleanName rest false
    else if inSection && strContains line "=" && ¬ pyStartswith line "#" then
      match splitFirstChar '=' line.toList with
      | some (n, v) =>
        (cleanName (pyStrip (String.mk n)), stripQuotes (pyStrip (String.mk v))) ::
          specSectionScan isTrigger cleanName rest inSection
      | none => specSectionScan isTrigger cleanName rest inSection
    else specSectionScan isTrigger cleanName rest inSection

/-- The `package.json` content of the spec's npm example, as parsed by
`json.loads`. -/
def demoNpmFields : List (String × Json) :=
  [("name", .str "x"), ("version", .str "1.0.0"),
   ("dependencies", .obj [("a", .str "^1.0.0"), ("b", .str "2.0.0")])]

/-! ## Library-style lemmas relating the source's scans to the spec's
relations -/

/-- Python's substring test agrees with the infix relation. -/
theorem containsSub_eq_infix_decide (n : List Char) (h : List Char) :
    containsSub n h = decide (n <:+: h) := by
  induction h with
  | nil => cases n <;> simp [containsSub]
  | cons c t ih =>
    rw [containsSub, ih]
    by_cases hp : n <+: (c :: t)
    · have hb : n.isPrefixOf (c :: t) = true := List.isPrefixOf_iff_prefix.2 hp
      simp [hb, List.infix_cons_iff, hp]
    · have hb : n.isPrefixOf (c :: t) = false :=
        Bool.eq_false_iff.mpr (fun hb => hp <| List.isPrefixOf_iff_prefix.1 hb)
      simp [hb, List.infix_cons_iff, hp]

/-- The checker's greedy two-pointer scan decides the subsequence
(sublist) relation. -/
theorem isSubseqGreedy_eq_decide_sublist (as bs : List Char) :
    isSubseqGreedy as bs = decide (as.Sublist bs) := by
  induction bs generalizing as with
  | nil => cases as <;> simp [isSubseqGreedy]
  | cons b t ih =>
    cases as with
    | nil => simp [isSubseqGreedy]
    | cons a as' =>
      rw [isSubseqGreedy]
      by_cases hab : a = b
      · subst hab
        rw [if_pos rfl, ih as']
        simp [List.cons_sublist_cons]
      · rw [if_neg hab, ih (a :: as')]
        have hiff : (a :: as').Sublist (b :: t) ↔ (a :: as').Sublist t := by
          constructor
          · intro hsub
            rcases List.cons_sublist_cons'.1 hsub with h1 | ⟨he, _⟩
            · exact h1
            · exact absurd he hab
          · intro hsub
            exact hsub.cons b
        simp [hiff]

/-- The checker's mismatch sum is the number of mismatched zipped positions. -/
theorem countMismatch_eq_countP (as : List Char) (bs : List Char) :
    countMismatch as bs =
      (as.zip bs).countP (fun p => decide (p.1 ≠ p.2)) := by
  induction as generalizing bs with
  | nil => cases bs <;> simp [countMismatch]
  | cons a t ih =>
    cases bs with
    | nil => simp [countMismatch]
    | cons b u =>
      rw [List.zip_cons_cons, List.countP_cons, countMismatch, ih]
      by_cases hab : a = b
      · simp [hab]
      · simp [hab]
        omega

/-- The recursive first-occurrence split agrees with splitting at the least
index where the needle occurs. -/
theorem splitFirstSub_eq_firstOccSplit (op : List Char) (hop : op ≠ [])
    (cs : List Char) : splitFirstSub op cs = firstOccSplit op cs := by
  induction cs with
  | nil =>
    have hemp : op.isEmpty = false := by
      cases op with
      | nil => exact absurd rfl hop
      | cons x xs => rfl
    simp [splitFirstSub, firstOccSplit, hemp]
  | cons c t ih =>
    rw [splitFirstSub]
    by_cases hp : op.isPrefixOf (c :: t) = true
    · rw [if_pos hp]
      unfold firstOccSplit
      rw [List.length_cons, List.range_succ_eq_map, List.find?_cons]
      have h0 : op.isPrefixOf (List.drop 0 (c :: t)) = true := by
        simpa using hp
      rw [h0]
      simp
    · rw [if_neg hp, ih]
      unfold firstOccSplit
      rw [List.length_cons, List.range_succ_eq_map, List.find?_cons]
      have h0 : op.isPrefixOf (List.drop 0 (c :: t)) = false := by
        simpa using Bool.eq_false_iff.mpr hp
      rw [h0, List.find?_map]
      have hcomp : ((fun i => op.isPrefixOf ((c :: t).drop i)) ∘ Nat.succ) =
          (fun i => op.isPrefixOf (t.drop i)) := by
        funext i
        simp [List.drop_succ_cons]
      rw [hcomp]
      cases hf : (List.range t.length).find? (fun i => op.isPrefixOf (t.drop i)) with
      | none => simp
      | some i =>
        simp [List.take_succ_cons, List.drop_succ_cons, Nat.succ_add]

/-- The mismatch sum is symmetric. -/
theorem countMismatch_comm (as : List Char) (bs : List Char) :
    countMismatch as bs = countMismatch bs as := by
  induction as generalizing bs with
  | nil => cases bs <;> simp [countMismatch]
  | cons a t ih =>
    cases bs with
    | nil => simp [countMismatch]
    | cons b u =>
      rw [countMismatch, countMismatch, ih]
      by_cases hab : a = b
      · simp [hab]
      · have hba : ¬ (b = a) := fun h => hab h.symm
        simp [hab, hba]

/-- The checker's similarity test computes the spec's similarity rule. -/
theorem is_similar_name_eq_specSimilar (a b : String) :
    is_similar_name a b = specSimilar a b := by
  unfold is_similar_name specSimilar
  by_cases habs : ((a.length : Int) - (b.length : Int)).natAbs > 2
  · simp [habs]
  · rw [if_neg habs, if_neg habs]
    by_cases heq : a.length = b.length
    · rw [if_pos heq, if_pos heq, countMismatch_eq_countP]
      rfl
    · rw [if_neg heq, if_neg heq]
      rcases Nat.lt_or_ge a.length b.length with hlt | hge
      · rw [if_pos hlt]
        simp only [if_pos hlt, similarInsDel]
        by_cases h1 : b.length - a.length = 1
        · have h2 : b.length = a.length + 1 := by omega
          rw [if_pos h1, if_pos h2, isSubseqGreedy_eq_decide_sublist]
        · have h2 : ¬ b.length = a.length + 1 := by omega
          rw [if_neg h1, if_neg h2]
      · have hnlt : ¬ a.length < b.length := by omega
        rw [if_neg hnlt]
        simp only [if_neg hnlt, similarInsDel]
        by_cases h1 : a.length - b.length = 1
        · have h2 : a.length = b.length + 1 := by omega
          rw [if_pos h1, if_pos h2, isSubseqGreedy_eq_decide_sublist]
        · have h2 : ¬ a.length = b.length + 1 := by omega
          rw [if_neg h1, if_neg h2]

/-- Directory extraction distributes over file-list concatenation. -/
theorem extract_packages_from_directory_append (xs ys : List FileEntry) :
    extract_packages_from_directory (xs ++ ys) =
      extract_packages_from_directory xs ++ extract_packages_from_directory ys := by
  induction xs with
  | nil => rfl
  | cons f fs ih =>
    rw [List.cons_append, extract_packages_from_directory,
      extract_packages_from_directory, ih, List.append_assoc]

/-- The names the checker looks up are exactly the non-empty names of the
packages it is given, in order. -/
theorem checkPackagesList_lookups (registry : String → Nat → HttpOutcome)
    (ps : List NpmPackage) :
    (checkPackagesList registry ps).2 =
      (ps.filter (fun p => p.name ≠ "")).map (fun p => p.name) := by
  induction ps with
  | nil => rfl
  | cons p t ih =>
    have hred : (checkPackagesList registry (p :: t)).2 =
        (check_single_package registry p).2 ++ (checkPackagesList registry t).2 :=
      rfl
    rw [hred, List.filter_cons]
    by_cases hn : p.name = ""
    · have h2 : (check_single_package registry p).2 = [] := by
        unfold check_single_package
        rw [if_pos hn]
      simp [h2, ih, hn]
    · have h2 : (check_single_package registry p).2 = [p.name] := by
        unfold check_single_package
        rw [if_neg hn]
        cases hinfo : (get_package_info (registry p.name) p.name).info with
        | none => simp [hinfo]
        | some info => simp [hinfo]
      simp [h2, ih, hn]

/-- One record is emitted per qualifying requirements line, whatever the
parsed name. -/
theorem requirements_flatMap_length (path : String) (ls : List String) :
    ∀ i : Nat,
    ((enumFrom i ls).flatMap (requirementsLine path)).length =
      ls.countP reqLineTest := by
  induction ls with
  | nil => intro i; rfl
  | cons l t ih =>
    intro i
    rw [enumFrom, List.flatMap_cons, List.length_append, ih (i + 1),
      List.countP_cons]
    cases hc : reqLineTest l with
    | false => simp [requirementsLine, hc]
    | true => simp [requirementsLine, hc, Nat.add_comm]

/-- The operator loop agrees with the spec's first-occurrence reading, for
any list of non-empty operators. -/
theorem pipOperatorScan_eq_specPipScan (ops : List String)
    (hops : ∀ op ∈ ops, op ≠ "") (spec : String) :
    pipOperatorScan ops spec = specPipScan ops spec := by
  induction ops with
  | nil => rfl
  | cons op t ih =>
    have hne : op.toList ≠ [] := by
      intro hnil
      apply hops op (List.mem_cons_self op t)
      cases op with
      | mk data =>
        have hd : data = [] := hnil
        rw [hd]
    rw [pipOperatorScan, specPipScan,
      splitFirstSub_eq_firstOccSplit op.toList hne]
    cases firstOccSplit op.toList spec.toList with
    | none => exact ih (fun o ho => hops o (List.mem_cons_of_mem op ho))
    | some p => rfl

/-- The cargo scanner is the generic bracket-section scanner triggered on
`[dependencies]`, with the name part only whitespace-stripped. -/
theorem cargoScan_eq_specSectionScan (path : String) (ls : List String) :
    ∀ (i : Nat) (st : Bool),
    (cargoScan path (enumFrom i ls) st).map (fun r => (r.name, r.version)) =
      (specSectionScan (fun l => pyStartswith l "[dependencies]") id ls st).map
        (fun q => (Json.str q.1, Json.str q.2)) := by
  induction ls with
  | nil => intro i st; rfl
  | cons l t ih =>
    intro i st
    rw [enumFrom]
    simp only [cargoScan, specSectionScan]
    split_ifs with h1 h2 h3
    · exact ih (i + 1) true
    · exact ih (i + 1) false
    · cases hsp : splitFirstChar '=' (pyStrip l).toList with
      | none => exact ih (i + 1) st
      | some p =>
        simp only [List.map_cons, ih (i + 1) st, id]
    · exact ih (i + 1) st

/-- The pyproject scanner is the generic bracket-section scanner triggered
on the two dependency headers, with quotes stripped from the name part. -/
theorem pyprojectScan_eq_specSectionScan (path : String) (ls : List String) :
    ∀ (i : Nat) (st : Bool),
    (pyprojectScan path (enumFrom i ls) st).map (fun r => (r.name, r.version)) =
      (specSectionScan
        (fun l => pyStartswith l "[tool.poetry.dependencies]" ||
          pyStartswith l "[project.dependencies]") stripQuotes ls st).map
        (fun q => (Json.str q.1, Json.str q.2)) := by
  induction ls with
  | nil => intro i st; rfl
  | cons l t ih =>
    intro i st
    rw [enumFrom]
    simp only [pyprojectScan, specSectionScan]
    split_ifs with h1 h2 h3
    · exact ih (i + 1) true
    · exact ih (i + 1) false
    · cases hsp : splitFirstChar '=' (pyStrip l).toList with
      | none => exact ih (i + 1) st
      | some p =>
        simp only [List.map_cons, ih (i + 1) st]
    · exact ih (i + 1) st

/-! ## Claim theorems -/

/-- C1, counterexample: with a registry answering HTTP 500 on every attempt,
`_get_package_info` issues exactly one request — it is not retried up to the
retry budget of `MAX_RETRIES` — and the record is classified
`not_found`/`is_unclaimed`, not an `Error` status, so a non-404 failure also
classifies the name as unclaimed. -/
theorem C1_counterexample :
    (get_package_info (fun _ => HttpOutcome.otherStatus 500) "leftpad").requests
      = 1 ∧
    (1 : Nat) ≠ MAX_RETRIES ∧
    ((check_single_package (fun _ _ => HttpOutcome.otherStatus 500)
        { name := "leftpad", package_manager := "npm" }).1.map
      (fun c => (c.npm_status, c.is_unclaimed))) = some ("not_found", true) := by
  refine ⟨rfl, by decide, rfl⟩

/-- C1, amended: only transport failures are retried (up to `MAX_RETRIES`
attempts, sleeping `RETRY_DELAY * BACKOFF_FACTOR ^ attempt` between
attempts); a response status other than 200 and 404 aborts after a single
request, exactly like a 404; and every lookup that yields no package info —
404, unexpected status, or exhausted retries — classifies the record as
`npm_status = "not_found"` with `is_unclaimed = true`; no `Error` status or
`error_detail` exists. -/
theorem C1_retry_and_classification :
    (∀ (resp : Nat → HttpOutcome) (name : String) (code : Nat),
      resp 0 = HttpOutcome.otherStatus code →
      get_package_info resp name =
        { info := none, requests := 1, sleeps := [] }) ∧
    (∀ (resp : Nat → HttpOutcome) (name : String),
      resp 0 = HttpOutcome.notFound →
      get_package_info resp name =
        { info := none, requests := 1, sleeps := [] }) ∧
    (∀ (resp : Nat → HttpOutcome) (name : String),
      (∀ i, i < MAX_RETRIES → ∃ m, resp i = HttpOutcome.netError m) →
      get_package_info resp name =
        { info := none, requests := MAX_RETRIES,
          sleeps := [RETRY_DELAY * BACKOFF_FACTOR ^ 0,
            RETRY_DELAY * BACKOFF_FACTOR ^ 1] }) ∧
    (∀ (registry : String → Nat → HttpOutcome) (pkg : NpmPackage),
      pkg.name ≠ "" →
      (get_package_info (registry pkg.name) pkg.name).info = none →
      (check_single_package registry pkg).1 =
        some { base := pkg, npm_status := "not_found", is_unclaimed := true,
               is_vulnerable := false, vulnerabilities := [],
               package_info := none }) := by
  refine ⟨?_, ?_, ?_, ?_⟩
  · intro resp name code h
    simp [get_package_info, MAX_RETRIES, getPackageInfoLoop, h]
  · intro resp name h
    simp [get_package_info, MAX_RETRIES, getPackageInfoLoop, h]
  · intro resp name h
    obtain ⟨m0, h0⟩ := h 0 (by decide)
    obtain ⟨m1, h1⟩ := h 1 (by decide)
    obtain ⟨m2, h2⟩ := h 2 (by decide)
    simp [get_package_info, MAX_RETRIES, RETRY_DELAY, BACKOFF_FACTOR,
      getPackageInfoLoop, h0, h1, h2]
  · intro registry pkg hname hinfo
    unfold check_single_package
    rw [if_neg hname]
    simp [hinfo]

/-- C1, witness for the amended theorem: a registry timing out on every
attempt is retried `MAX_RETRIES` times with backoff sleeps 1 and 2 seconds,
and the package is then classified unclaimed. -/
theorem C1_retry_and_classification_witness :
    get_package_info (fun _ => HttpOutcome.netError "timeout") "leftpad" =
      { info := none, requests := MAX_RETRIES,
        sleeps := [RETRY_DELAY * BACKOFF_FACTOR ^ 0,
          RETRY_DELAY * BACKOFF_FACTOR ^ 1] } ∧
    (check_single_package (fun _ _ => HttpOutcome.netError "timeout")
        { name := "leftpad", package_manager := "npm" }).1 =
      some { base := { name := "leftpad", package_manager := "npm" },
             npm_status := "not_found", is_unclaimed := true,
             is_vulnerable := false, vulnerabilities := [],
             package_info := none } :=
  ⟨C1_retry_and_classification.2.2.1 _ "leftpad" (fun i _ => ⟨"timeout", rfl⟩),
   C1_retry_and_classification.2.2.2 _
     { name := "leftpad", package_manager := "npm" } (by decide) rfl⟩

/-- C2, counterexample: the requirements.txt line `==2.28.0` is non-blank
and non-comment; the parser emits one record for it whose name is the empty
string — empty-name records are not dropped. -/
theorem C2_counterexample :
    (extract_requirements_txt "==2.28.0" "requirements.txt").map
      (fun r => r.name) = [Json.str ""] := by
  rfl

/-- C2, amended: the requirements.txt parser emits exactly one record per
non-blank, non-comment line, whether or not the name part is empty after
operator splitting; no record is dropped for having an empty name. -/
theorem C2_record_per_line (content path : String) :
    (extract_requirements_txt content path).length =
      (pyLines content).countP reqLineTest := by
  unfold extract_requirements_txt
  exact requirements_flatMap_length path (pyLines content) 1

/-- C3, counterexample: two npm records sharing the name `a` cause two
registry lookups, not one per distinct name. -/
theorem C3_counterexample :
    (check_packages (fun _ _ => HttpOutcome.notFound)
        [{ name := "a", package_manager := "npm" },
         { name := "a", package_manager := "npm" }]).2 = ["a", "a"] ∧
    List.count "a" ["a", "a"] ≠ 1 := by
  refine ⟨rfl, by decide⟩

/-- C3, amended: the checker operates only on records whose
`package_manager` is `npm`, and issues one registry lookup per such record
with a non-empty name, in input order — duplicates are not deduplicated, so
records sharing a name each incur their own lookup and each receives the
result of its own call. -/
theorem C3_lookup_per_record (registry : String → Nat → HttpOutcome)
    (packages : List NpmPackage) :
    (check_packages registry packages).2 =
      (((packages.filter (fun p => p.package_manager = "npm")).filter
        (fun p => p.name ≠ "")).map (fun p => p.name)) := by
  unfold check_packages
  exact checkPackagesList_lookups registry _

/-- C4: the risk heuristic of the checker equals the spec's ordered-rule
scorer — keyword containment in the case-folded name, then length below 3,
then similarity to a popular package under the spec's
Hamming/subsequence/length-gap rule — and the four example names score as
the claim states. -/
theorem C4_risk_scorer :
    (∀ name : String, is_potentially_vulnerable_package name =
      decide (specScore name ≠ RiskReason.noRisk)) ∧
    is_potentially_vulnerable_package "lodah" = true ∧
    specScore "lodah" = RiskReason.nameSimilarity ∧
    is_potentially_vulnerable_package "expres" = true ∧
    specScore "expres" = RiskReason.nameSimilarity ∧
    is_potentially_vulnerable_package "ab" = true ∧
    specScore "ab" = RiskReason.shortName ∧
    is_potentially_vulnerable_package "completely-unrelated-package-name"
      = false ∧
    specScore "completely-unrelated-package-name" = RiskReason.noRisk := by
  refine ⟨?_, by decide, by decide, by decide, by decide, by decide, by decide,
    by decide, by decide⟩
  intro name
  unfold is_potentially_vulnerable_package specScore
  have hkw : (SUSPICIOUS_PATTERNS.any (fun pat => strContains (pyLower name) pat))
      = (SUSPICIOUS_PATTERNS.any
        (fun k => decide (k.toList <:+: (pyLower name).toList))) :=
    congrArg SUSPICIOUS_PATTERNS.any
      (funext fun k => containsSub_eq_infix_decide k.toList (pyLower name).toList)
  have hsim : (POPULAR_PACKAGES.any (fun popular =>
        is_similar_name name popular))
      = (POPULAR_PACKAGES.any (fun popular => specSimilar name popular)) :=
    congrArg POPULAR_PACKAGES.any
      (funext fun popular => is_similar_name_eq_specSimilar name popular)
  simp only [hkw, hsim]
  cases hA : SUSPICIOUS_PATTERNS.any
      (fun k => decide (k.toList <:+: (pyLower name).toList)) with
  | true => simp
  | false =>
    by_cases hB : name.length < 3
    · simp [hB]
    · cases hC : POPULAR_PACKAGES.any (fun popular => specSimilar name popular) with
      | true => simp [hB]
      | false => simp [hB]

/-- C5: `_parse_pip_specification` realizes the spec's rule — scan the
operators in the listed check order, split at the first occurrence of the
first operator found, strip both parts, version `"unknown"` when no operator
occurs — and the two example lines parse as the claim states. -/
theorem C5_pip_parse :
    (∀ spec : String, parse_pip_specification spec = specPipParse spec) ∧
    parse_pip_specification "requests==2.28.0" = ("requests", "==2.28.0") ∧
    parse_pip_specification "flask" = ("flask", "unknown") := by
  refine ⟨?_, rfl, rfl⟩
  intro spec
  unfold parse_pip_specification specPipParse
  exact pipOperatorScan_eq_specPipScan PIP_OPERATORS (by decide) (pyStrip spec)

/-- C6: the npm parser on the spec's example object emits exactly three
records — the main package (`x`, `1.0.0`) and the two dependencies with
their semver ranges kept verbatim under category `dependencies`. -/
theorem C6_npm_example :
    extract_npm_packages (some demoNpmFields) "package.json" =
      [{ name := .str "x", version := .str "1.0.0", type := "package",
         category := "main", package_manager := "npm",
         file_path := "package.json", source := "package.json" },
       { name := .str "a", version := .str "^1.0.0", type := "dependency",
         category := "dependencies", package_manager := "npm",
         file_path := "package.json", source := "package.json" },
       { name := .str "b", version := .str "2.0.0", type := "dependency",
         category := "dependencies", package_manager := "npm",
         file_path := "package.json", source := "package.json" }] := by
  rfl

/-- C7: parsers are total at the file boundary — a `package.json` whose
content `json.loads` rejects, and a `pom.xml` whose content `ET.fromstring`
rejects, each contribute an empty record list — and per-file results are
concatenated, so a malformed manifest anywhere in the file list neither
removes nor prevents the records of the other files. -/
theorem C7_parser_totality :
    (∀ f : FileEntry, identify_package_type f.basename = some "npm" →
      f.jsonData = none → extract_packages_from_file f = []) ∧
    (∀ f : FileEntry, identify_package_type f.basename = some "maven" →
      f.xmlData = none → extract_packages_from_file f = []) ∧
    (∀ (pre post : List FileEntry) (f : FileEntry),
      identify_package_type f.basename = some "npm" → f.jsonData = none →
      extract_packages_from_directory (pre ++ f :: post) =
        extract_packages_from_directory pre ++
          extract_packages_from_directory post) := by
  have hnpm : ∀ f : FileEntry, identify_package_type f.basename = some "npm" →
      f.jsonData = none → extract_packages_from_file f = [] := by
    intro f htype hjson
    unfold extract_packages_from_file
    rw [htype]
    by_cases hraw : f.raw = ""
    · simp [hraw]
    · simp [hraw, hjson, extract_npm_packages]
  refine ⟨hnpm, ?_, ?_⟩
  · intro f htype hxml
    unfold extract_packages_from_file
    rw [htype]
    by_cases hraw : f.raw = ""
    · simp [hraw]
    · simp [hraw, hxml, extract_maven_packages]
  · intro pre post f htype hjson
    rw [extract_packages_from_directory_append, extract_packages_from_directory,
      hnpm f htype hjson, List.nil_append]

/-- C7, witness: a directory containing a well-formed `requirements.txt` and
a `package.json` with unparseable content yields exactly the records of the
requirements file; the malformed file contributes nothing. -/
theorem C7_parser_totality_witness :
    extract_packages_from_file
      { path := "a/package.json", basename := "package.json",
        raw := "not json", jsonData := none, xmlData := none } = [] ∧
    extract_packages_from_directory
      ([{ path := "b/requirements.txt", basename := "requirements.txt",
          raw := "flask", jsonData := none, xmlData := none }] ++
        { path := "a/package.json", basename := "package.json",
          raw := "not json", jsonData := none, xmlData := none } :: []) =
      extract_packages_from_directory
        [{ path := "b/requirements.txt", basename := "requirements.txt",
           raw := "flask", jsonData := none, xmlData := none }] ++
        extract_packages_from_directory [] :=
  ⟨C7_parser_totality.1 _ (by decide) rfl,
   C7_parser_totality.2.2 _ [] _ (by decide) rfl⟩

/-- C9, counterexample: on the Cargo.toml content
`[dependencies]` / `"a" = "1.0"`, the cargo scanner keeps the quotes around
the dependency name (the name part is only whitespace-stripped), so it is
not the quote-stripping scanner the claim describes. -/
theorem C9_counterexample :
    (extract_cargo_packages "[dependencies]\n\"a\" = \"1.0\"" "Cargo.toml").map
      (fun r => r.name) = [Json.str "\"a\""] ∧
    stripQuotes "\"a\"" = "a" ∧
    Json.str "\"a\"" ≠ Json.str "a" := by
  refine ⟨rfl, rfl, by simp⟩

/-- C9, amended: the cargo and pyproject parsers are the same
bracket-section line scanner — enter on the trigger header, leave on any
other `[` header, and for each in-section line containing `=` and not
starting with `#` emit the parts around the first `=` — differing in the
trigger (`[dependencies]` versus the two pyproject headers) and in the name
handling: pyproject strips surrounding quotes and whitespace from the name,
while cargo strips only whitespace; both strip quotes and whitespace from
the version. -/
theorem C9_section_scanners :
    (∀ content path : String,
      (extract_cargo_packages content path).map (fun r => (r.name, r.version)) =
        (specSectionScan (fun l => pyStartswith l "[dependencies]") id
          (pyLines content) false).map
          (fun q => (Json.str q.1, Json.str q.2))) ∧
    (∀ content path : String,
      (extract_pyproject_toml content path).map
          (fun r => (r.name, r.version)) =
        (specSectionScan
          (fun l => pyStartswith l "[tool.poetry.dependencies]" ||
            pyStartswith l "[project.dependencies]") stripQuotes
          (pyLines content) false).map
          (fun q => (Json.str q.1, Json.str q.2))) := by
  constructor
  · intro content path
    unfold extract_cargo_packages
    exact cargoScan_eq_specSectionScan path (pyLines content) 1 false
  · intro content path
    unfold extract_pyproject_toml
    exact pyprojectScan_eq_specSectionScan path (pyLines content) 1 false

/-- C10: the name-similarity relation of the checker is symmetric. -/
theorem C10_similarity_symmetric (a b : String) :
    is_similar_name a b = is_similar_name b a := by
  unfold is_similar_name
  have habs : ((a.length : Int) - (b.length : Int)).natAbs =
      ((b.length : Int) - (a.length : Int)).natAbs := by
    rw [← Int.natAbs_neg, neg_sub]
  rw [habs]
  by_cases hgt : ((b.length : Int) - (a.length : Int)).natAbs > 2
  · rw [if_pos hgt, if_pos hgt]
  · rw [if_neg hgt, if_neg hgt]
    by_cases heq : a.length = b.length
    · rw [if_pos heq, if_pos heq.symm, countMismatch_comm]
    · have hne : ¬ b.length = a.length := fun h => heq h.symm
      rw [if_neg heq, if_neg hne]
      rcases Nat.lt_or_ge a.length b.length with hlt | hge
      · have hnlt : ¬ b.length < a.length := by omega
        rw [if_pos hlt, if_neg hnlt]
      · have hlt : b.length < a.length := by omega
        have hnlt : ¬ a.length < b.length := by omega
        rw [if_neg hnlt, if_pos hlt]

end Deponpm
